import Mathlib

/-!
Shallow embedding of `mayan/apps/file_caching/models.py`: the `Cache`,
`CachePartition` and `CachePartitionFile` model classes and their operations
(`get_total_size`, `prune`, `purge`, `save`, `create_file`, `delete`,
`update_size`, `get_defined_storage`).

Modelling conventions:
* The storage backend is an association list from backend keys (strings) to
  byte contents (`List Nat`).  `save` replaces, `delete` is a no-op on an
  absent key (the contract the code relies on).
* A cache's database rows (`CachePartitionFile` records of all its
  partitions) are a `List CacheFile`; a partition is identified by its name
  string, matching the `partition__cache__id` filter of `Cache.get_files`.
* Lock acquisition outcomes are an oracle: a `List Bool` consumed one entry
  per acquisition attempt (`true` = acquired, exhausted list = acquired),
  since the lock service is an external collaborator.
* Raised exceptions are explicit error values returned next to the
  post-exception state.
-/

namespace FileCaching

/-- A storage backend entry registered in the `DefinedStorage` registry
(`dotted_path`, `label`, `name` as in `DefinedStorage.__init__`). -/
structure DefinedStorage where
  dotted_path : String
  label : String
  name : String
deriving DecidableEq

/-- The `DefinedStorage` registry: known storage names with their entries.
`DefinedStorage.get(name=...)` raises `KeyError` on a miss, modelled as
`none`. -/
def DefinedStorage.get (registry : List (String × DefinedStorage))
    (name : String) : Option DefinedStorage :=
  (registry.find? (fun q => q.1 = name)).map (fun q => q.2)

/-- One `CachePartitionFile` row: the partition it belongs to (by partition
name), its `filename`, its `datetime` (creation timestamp, `auto_now_add`)
and its `file_size` field. -/
structure CacheFile where
  partition : String
  filename : String
  datetime : Nat
  file_size : Nat
deriving DecidableEq

/-- `CachePartition.get_combined_filename`: the flat backend key
`parent + "-" + filename`. -/
def CachePartition.get_combined_filename (parent filename : String) : String :=
  parent ++ "-" ++ filename

/-- `CachePartitionFile.full_filename`: combined key of the file's partition
name and filename. -/
def CacheFile.full_filename (f : CacheFile) : String :=
  CachePartition.get_combined_filename f.partition f.filename

/-- The byte-storage backend: association list from keys to byte contents. -/
abbrev Storage := List (String × List Nat)

/-- Backend `delete(name)`: removes the object at `name`; a no-op when the
key is absent. -/
def storageDelete (st : Storage) (name : String) : Storage :=
  st.filter (fun q => q.1 ≠ name)

/-- Backend `save(name, content)`: stores `content` at `name`, replacing any
previous object. -/
def storageSave (st : Storage) (name : String) (content : List Nat) : Storage :=
  (name, content) :: storageDelete st name

/-- Backend read access at a key (`none` = object absent). -/
def storageLookup (st : Storage) (name : String) : Option (List Nat) :=
  (st.find? (fun q => q.1 = name)).map (fun q => q.2)

/-- Backend `size(name)`: byte length of the object at `name`. -/
def storageSize (st : Storage) (name : String) : Nat :=
  ((storageLookup st name).getD []).length

/-- A `Cache` row together with the state it operates on: its
`defined_storage_name` and `maximum_size` fields, the `CachePartitionFile`
rows of all its partitions (`Cache.get_files`), and the storage backend. -/
structure Cache where
  defined_storage_name : String
  maximum_size : Nat
  files : List CacheFile
  storage : Storage
deriving DecidableEq

/-- `Cache.get_files`: every `CachePartitionFile` of every partition of the
cache. -/
def Cache.get_files (c : Cache) : List CacheFile :=
  c.files

/-- `Cache.get_total_size`: `Sum('file_size')` over `get_files`, `0` when
there are none. -/
def Cache.get_total_size (c : Cache) : Nat :=
  (c.get_files.map CacheFile.file_size).sum

/-- `Cache.get_defined_storage`: registry lookup of
`defined_storage_name`; on `KeyError` returns the placeholder
`DefinedStorage(dotted_path='', label='Unknown', name='unknown')`. -/
def Cache.get_defined_storage (registry : List (String × DefinedStorage))
    (c : Cache) : DefinedStorage :=
  match DefinedStorage.get registry c.defined_storage_name with
  | some storage => storage
  | none => ⟨"", "Unknown", "unknown"⟩

/-- `Cache.label`: the label of the cache's defined storage. -/
def Cache.label (registry : List (String × DefinedStorage)) (c : Cache) :
    String :=
  (c.get_defined_storage registry).label

/-- Accumulator pass behind `earliest`: keeps the entry with the strictly
smallest `datetime` seen so far (the first such entry on ties). -/
def earliestAux : CacheFile → List CacheFile → CacheFile
  | best, [] => best
  | best, f :: fs => earliestAux (if f.datetime < best.datetime then f else best) fs

/-- `Cache.get_files().earliest()`: the row with the smallest `datetime`
(`get_latest_by = 'datetime'`); `none` models the `DoesNotExist` raise on an
empty queryset. -/
def Cache.earliest (c : Cache) : Option CacheFile :=
  match c.get_files with
  | [] => none
  | f :: fs => some (earliestAux f fs)

/-- Exceptions raised by `CachePartitionFile.delete`: the
`locked_class_method` decorator's `LockError`, or a storage backend failure
in `storage.delete`. -/
inductive DeleteError
  | lockError
  | backendError
deriving DecidableEq

/-- `CachePartitionFile.delete`: acquire the per-file lock (`lockOk`), then
delete the backend object at the combined key (`backendOk` tells whether
that backend call raises), then remove the row.  A raise at either step
leaves the remaining steps undone and propagates. -/
def CacheFile.delete (lockOk backendOk : Bool) (c : Cache) (f : CacheFile) :
    Option DeleteError × Cache :=
  if lockOk = false then (some DeleteError.lockError, c)
  else if backendOk = false then (some DeleteError.backendError, c)
  else (none,
    { c with
      storage := storageDelete c.storage f.full_filename
      files := c.files.erase f })

/-- `CachePartitionFile.update_size`: set `file_size` from the backend's
`size` at the combined key and save the row. -/
def CacheFile.update_size (c : Cache) (f : CacheFile) : Cache :=
  let newSize := storageSize c.storage f.full_filename
  { c with
    files := c.files.map (fun g => if g = f then { g with file_size := newSize } else g) }

/-- Outcome of a `Cache.prune` call: returned normally (`ok`), raised the
`RuntimeError('Too many cache prune attempts failed.')` (`exhausted`), the
unreachable `DoesNotExist` raise of `earliest()` on an empty queryset
(`emptyError`), or ran out of modelling fuel (`outOfFuel`, never produced
with sufficient fuel). -/
inductive PruneResult
  | ok
  | exhausted
  | emptyError
  | outOfFuel
deriving DecidableEq

/-- The `while` loop of `Cache.prune` with explicit fuel.  `attempts` is the
accumulated failed-attempt counter, `oracle` yields one lock-acquisition
outcome per `delete` attempt.  Besides the final state and outcome it
returns the trace of deletion attempts: for each loop iteration that reached
`delete`, the selected file and the full file list at that moment. -/
def Cache.pruneAux (maxAttempts : Nat) :
    Nat → Nat → List Bool → Cache →
      Cache × PruneResult × List (CacheFile × List CacheFile)
  | 0, _, _, c => (c, PruneResult.outOfFuel, [])
  | fuel + 1, attempts, oracle, c =>
    if c.get_total_size ≤ c.maximum_size then (c, PruneResult.ok, [])
    else
      match c.earliest with
      | none => (c, PruneResult.emptyError, [])
      | some victim =>
        if oracle.headD true then
          let r := Cache.pruneAux maxAttempts fuel attempts oracle.tail
            (victim.delete true true c).2
          (r.1, r.2.1, (victim, c.files) :: r.2.2)
        else
          if attempts + 1 > maxAttempts then
            (c, PruneResult.exhausted, [(victim, c.files)])
          else
            let r := Cache.pruneAux maxAttempts fuel (attempts + 1) oracle.tail c
            (r.1, r.2.1, (victim, c.files) :: r.2.2)

/-- `Cache.prune`: run the loop from a zero attempt counter.  The fuel
`c.files.length + maxAttempts + 1` is sufficient (proved below), so the
model never returns `outOfFuel` here. -/
def Cache.prune (maxAttempts : Nat) (oracle : List Bool) (c : Cache) :
    Cache × PruneResult × List (CacheFile × List CacheFile) :=
  Cache.pruneAux maxAttempts (c.files.length + maxAttempts + 1) 0 oracle c

/-- `Cache.save`: persist the (possibly edited) configuration — here, the
`maximum_size` field — with `super().save()`, then call `self.prune()` and
return. -/
def Cache.save (maxAttempts : Nat) (oracle : List Bool)
    (newMaximumSize : Nat) (c : Cache) :
    Cache × PruneResult × List (CacheFile × List CacheFile) :=
  let persisted := { c with maximum_size := newMaximumSize }
  Cache.prune maxAttempts oracle persisted

/-- `CachePartition.purge`: delete every `CachePartitionFile` of partition
`p` (a snapshot of `self.files.all()`), each via the full locked delete
path (locks assumed obtainable). -/
def CachePartition.purge (c : Cache) (p : String) : Cache :=
  (c.files.filter (fun f => f.partition = p)).foldl
    (fun acc f => (f.delete true true acc).2) c

/-- The partition names owned by the cache (`self.partitions.all()`,
one entry per partition). -/
def Cache.partitions (c : Cache) : List String :=
  (c.files.map CacheFile.partition).dedup

/-- `Cache.purge`: resolve the cache's defined storage by name; on
`KeyError` do nothing (comment in source: purging would erase only the
database data and orphan the storage files); otherwise purge every owned
partition. -/
def Cache.purge (registry : List (String × DefinedStorage)) (c : Cache) :
    Cache :=
  match DefinedStorage.get registry c.defined_storage_name with
  | none => c
  | some _ => c.partitions.foldl (fun acc p => CachePartition.purge acc p) c

/-- Whether a `CachePartitionFile` row with the given `(partition,
filename)` key exists — the pair is `unique_together`, so
`self.files.create(filename=...)` raises an integrity error exactly when
this holds. -/
def hasRecord (files : List CacheFile) (p x : String) : Bool :=
  files.any (fun g => g.partition = p && g.filename = x)

/-- What the caller of `create_file` does with the yielded writable stream:
either writes `content` and finishes normally, or raises after having
written `written` bytes. -/
inductive WriteOutcome
  | success (content : List Nat)
  | failure (written : List Nat)
deriving DecidableEq

/-- Exceptions propagating out of `CachePartition.create_file`: the
per-file lock was unavailable; `self.cache.prune()` raised its
`RuntimeError`; `self.files.create` violated the `(partition, filename)`
uniqueness constraint; or the caller's write raised. -/
inductive CreateError
  | lockError
  | pruneExhausted
  | integrityError
  | writeError
deriving DecidableEq

/-- `CachePartition.create_file(filename)` for partition `p`, run to
completion of the `with` block.  Steps, as in the source: acquire the
per-file lock; `self.cache.prune()`; force-create an empty backend object
at the combined key (`delete` then `save`); `self.files.create(filename)`
(timestamp `now`, size `0`); yield the writable stream to the caller
(`body`); on normal completion `close` and `update_size`; on an exception
after the record was created, delete it via the full delete path, else
delete the stray empty placeholder; re-raise.  The lock is released on
every path. -/
def CachePartition.create_file (maxAttempts : Nat) (lockOk : Bool)
    (pruneOracle : List Bool) (p x : String) (now : Nat)
    (body : WriteOutcome) (c : Cache) : Option CreateError × Cache :=
  if lockOk = false then (some CreateError.lockError, c)
  else
    let pr := Cache.prune maxAttempts pruneOracle c
    let c1 := pr.1
    if pr.2.1 = PruneResult.ok then
      let key := CachePartition.get_combined_filename p x
      let c2 := { c1 with storage := storageSave (storageDelete c1.storage key) key [] }
      if hasRecord c2.files p x then
        (some CreateError.integrityError,
          { c2 with storage := storageDelete c2.storage key })
      else
        let f : CacheFile := ⟨p, x, now, 0⟩
        let c3 := { c2 with files := c2.files ++ [f] }
        match body with
        | WriteOutcome.failure written =>
          let c4 := { c3 with storage := storageSave c3.storage key written }
          (some CreateError.writeError, (f.delete true true c4).2)
        | WriteOutcome.success content =>
          let c4 := { c3 with storage := storageSave c3.storage key content }
          (none, f.update_size c4)
    else (some CreateError.pruneExhausted, c1)

/-! ### Storage backend lemmas -/

theorem storageLookup_eq_none_iff (st : Storage) (k : String) :
    storageLookup st k = none ↔ ∀ q ∈ st, ¬ q.1 = k := by
  unfold storageLookup
  rw [Option.map_eq_none']
  rw [List.find?_eq_none]
  simp

theorem storageLookup_delete_self (st : Storage) (k : String) :
    storageLookup (storageDelete st k) k = none := by
  rw [storageLookup_eq_none_iff]
  intro q hq
  have := List.of_mem_filter hq
  simpa using this

theorem storageLookup_delete_none (st : Storage) (k k' : String)
    (h : storageLookup st k = none) :
    storageLookup (storageDelete st k') k = none := by
  rw [storageLookup_eq_none_iff] at h ⊢
  intro q hq
  exact h q (List.mem_of_mem_filter hq)

theorem storageLookup_save_self (st : Storage) (k : String) (v : List Nat) :
    storageLookup (storageSave st k v) k = some v := by
  unfold storageLookup storageSave
  simp [List.find?]

theorem storageSize_save_self (st : Storage) (k : String) (v : List Nat) :
    storageSize (storageSave st k v) k = v.length := by
  unfold storageSize
  rw [storageLookup_save_self]
  rfl

/-! ### `earliest` selects the minimum `datetime`, cache-wide -/

theorem earliestAux_mem (best : CacheFile) (fs : List CacheFile) :
    earliestAux best fs = best ∨ earliestAux best fs ∈ fs := by
  induction fs generalizing best with
  | nil => exact Or.inl rfl
  | cons f fs ih =>
    simp only [earliestAux]
    by_cases h : f.datetime < best.datetime
    · rw [if_pos h]
      rcases ih f with h1 | h1
      · exact Or.inr (by simp [h1])
      · exact Or.inr (List.mem_cons_of_mem _ h1)
    · rw [if_neg h]
      rcases ih best with h1 | h1
      · exact Or.inl h1
      · exact Or.inr (List.mem_cons_of_mem _ h1)

theorem earliestAux_le (best : CacheFile) (fs : List CacheFile) :
    (earliestAux best fs).datetime ≤ best.datetime ∧
      ∀ g ∈ fs, (earliestAux best fs).datetime ≤ g.datetime := by
  induction fs generalizing best with
  | nil => exact ⟨le_refl _, by simp⟩
  | cons f fs ih =>
    simp only [earliestAux]
    by_cases h : f.datetime < best.datetime
    · rw [if_pos h]
      refine ⟨le_trans (ih f).1 (le_of_lt h), ?_⟩
      intro g hg
      rcases List.mem_cons.mp hg with rfl | hg
      · exact (ih _).1
      · exact (ih _).2 g hg
    · rw [if_neg h]
      refine ⟨(ih best).1, ?_⟩
      intro g hg
      rcases List.mem_cons.mp hg with rfl | hg
      · exact le_trans (ih best).1 (le_of_not_lt h)
      · exact (ih best).2 g hg

theorem Cache.earliest_spec (c : Cache) (v : CacheFile)
    (h : c.earliest = some v) :
    v ∈ c.files ∧ ∀ g ∈ c.files, v.datetime ≤ g.datetime := by
  unfold Cache.earliest Cache.get_files at h
  revert h
  cases hc : c.files with
  | nil => intro h; simp at h
  | cons f fs =>
    intro h
    have hv : earliestAux f fs = v := by simpa using h
    constructor
    · rcases earliestAux_mem f fs with h1 | h1
      · rw [← hv, h1]; exact List.mem_cons_self _ _
      · rw [← hv]; exact List.mem_cons_of_mem _ h1
    · intro g hg
      rcases List.mem_cons.mp hg with rfl | hg
      · rw [← hv]; exact (earliestAux_le g fs).1
      · rw [← hv]; exact (earliestAux_le f fs).2 g hg

/-! ### `delete` lemmas -/

theorem CacheFile.delete_ok (c : Cache) (f : CacheFile) :
    (CacheFile.delete true true c f).2 =
      { c with
        storage := storageDelete c.storage f.full_filename
        files := c.files.erase f } := rfl

theorem CacheFile.delete_maximum_size (c : Cache) (f : CacheFile) :
    (CacheFile.delete true true c f).2.maximum_size = c.maximum_size := rfl

/-! ### `pruneAux` invariants -/

theorem Cache.pruneAux_maximum_size (maxAttempts fuel attempts : Nat)
    (oracle : List Bool) (c : Cache) :
    (Cache.pruneAux maxAttempts fuel attempts oracle c).1.maximum_size =
      c.maximum_size := by
  induction fuel generalizing attempts oracle c with
  | zero => rfl
  | succ fl ih =>
    simp only [Cache.pruneAux]
    split
    · rfl
    · split
      · rfl
      · split
        · exact ih attempts oracle.tail _
        · split
          · rfl
          · exact ih (attempts + 1) oracle.tail c

theorem Cache.pruneAux_ok_bound (maxAttempts fuel attempts : Nat)
    (oracle : List Bool) (c : Cache) :
    (Cache.pruneAux maxAttempts fuel attempts oracle c).2.1 =
      PruneResult.ok →
    (Cache.pruneAux maxAttempts fuel attempts oracle c).1.get_total_size ≤
      (Cache.pruneAux maxAttempts fuel attempts oracle c).1.maximum_size := by
  induction fuel generalizing attempts oracle c with
  | zero => intro h; exact absurd h (by simp [Cache.pruneAux])
  | succ fl ih =>
    simp only [Cache.pruneAux]
    split
    · next h1 => intro _; exact h1
    · split
      · intro h; simp at h
      · split
        · intro h; exact ih attempts oracle.tail _ h
        · split
          · intro h; simp at h
          · intro h; exact ih (attempts + 1) oracle.tail c h

theorem Cache.pruneAux_ne_outOfFuel (maxAttempts fuel attempts : Nat)
    (oracle : List Bool) (c : Cache)
    (hfuel : c.files.length + (maxAttempts - attempts) + 1 ≤ fuel) :
    (Cache.pruneAux maxAttempts fuel attempts oracle c).2.1 ≠
      PruneResult.outOfFuel := by
  induction fuel generalizing attempts oracle c with
  | zero => omega
  | succ fl ih =>
    simp only [Cache.pruneAux]
    split
    · simp
    · split
      · simp
      · next victim heq =>
        split
        · have hv : victim ∈ c.files := (Cache.earliest_spec c victim heq).1
          have hlen : ((CacheFile.delete true true c victim).2).files.length =
              c.files.length - 1 := by
            rw [CacheFile.delete_ok]
            exact List.length_erase_of_mem hv
          have hpos : 0 < c.files.length := List.length_pos.mpr
            (List.ne_nil_of_mem hv)
          exact ih attempts oracle.tail _ (by omega)
        · split
          · simp
          · next h3 =>
            exact ih (attempts + 1) oracle.tail c (by omega)

theorem Cache.pruneAux_ne_emptyError (maxAttempts fuel attempts : Nat)
    (oracle : List Bool) (c : Cache) :
    (Cache.pruneAux maxAttempts fuel attempts oracle c).2.1 ≠
      PruneResult.emptyError := by
  induction fuel generalizing attempts oracle c with
  | zero => simp [Cache.pruneAux]
  | succ fl ih =>
    simp only [Cache.pruneAux]
    split
    · simp
    · next h1 =>
      split
      · next heq =>
        exfalso
        apply h1
        have hnil : c.files = [] := by
          by_contra hne
          rcases List.exists_cons_of_ne_nil hne with ⟨f, fs, hc⟩
          have : c.earliest = some (earliestAux f fs) := by
            unfold Cache.earliest Cache.get_files
            rw [hc]
          rw [heq] at this
          exact absurd this (by simp)
        unfold Cache.get_total_size Cache.get_files
        rw [hnil]
        simp
      · split
        · exact ih attempts oracle.tail _
        · split
          · simp
          · exact ih (attempts + 1) oracle.tail c

theorem Cache.pruneAux_step (maxAttempts fuel attempts : Nat)
    (oracle : List Bool) (c : Cache) (v : CacheFile)
    (hover : ¬ c.get_total_size ≤ c.maximum_size)
    (he : c.earliest = some v) :
    Cache.pruneAux maxAttempts (fuel + 1) attempts oracle c =
      if oracle.headD true = true then
        ((Cache.pruneAux maxAttempts fuel attempts oracle.tail
            (CacheFile.delete true true c v).2).1,
          (Cache.pruneAux maxAttempts fuel attempts oracle.tail
            (CacheFile.delete true true c v).2).2.1,
          (v, c.files) ::
            (Cache.pruneAux maxAttempts fuel attempts oracle.tail
              (CacheFile.delete true true c v).2).2.2)
      else if attempts + 1 > maxAttempts then
        (c, PruneResult.exhausted, [(v, c.files)])
      else
        ((Cache.pruneAux maxAttempts fuel (attempts + 1) oracle.tail c).1,
          (Cache.pruneAux maxAttempts fuel (attempts + 1) oracle.tail c).2.1,
          (v, c.files) ::
            (Cache.pruneAux maxAttempts fuel (attempts + 1) oracle.tail c).2.2) := by
  conv_lhs => rw [Cache.pruneAux]
  rw [if_neg hover, he]

theorem Cache.pruneAux_trace_earliest (maxAttempts fuel attempts : Nat)
    (oracle : List Bool) (c : Cache) :
    ∀ v fs, (v, fs) ∈ (Cache.pruneAux maxAttempts fuel attempts oracle c).2.2 →
      v ∈ fs ∧ ∀ g ∈ fs, v.datetime ≤ g.datetime := by
  induction fuel generalizing attempts oracle c with
  | zero => simp [Cache.pruneAux]
  | succ fl ih =>
    simp only [Cache.pruneAux]
    split
    · simp
    · split
      · simp
      · next victim heq =>
        split
        · intro v fs hmem
          have hmem' : (v, fs) = (victim, c.files) ∨
              (v, fs) ∈ (Cache.pruneAux maxAttempts fl attempts oracle.tail
                (CacheFile.delete true true c victim).2).2.2 :=
            List.mem_cons.mp hmem
          rcases hmem' with hpair | htail
          · simp only [Prod.mk.injEq] at hpair
            obtain ⟨rfl, rfl⟩ := hpair
            exact Cache.earliest_spec c v heq
          · exact ih attempts oracle.tail _ v fs htail
        · split
          · intro v fs hmem
            have hmem' : (v, fs) = (victim, c.files) :=
              List.mem_singleton.mp hmem
            simp only [Prod.mk.injEq] at hmem'
            obtain ⟨rfl, rfl⟩ := hmem'
            exact Cache.earliest_spec c v heq
          · intro v fs hmem
            have hmem' : (v, fs) = (victim, c.files) ∨
                (v, fs) ∈ (Cache.pruneAux maxAttempts fl (attempts + 1)
                  oracle.tail c).2.2 :=
              List.mem_cons.mp hmem
            rcases hmem' with hpair | htail
            · simp only [Prod.mk.injEq] at hpair
              obtain ⟨rfl, rfl⟩ := hpair
              exact Cache.earliest_spec c v heq
            · exact ih (attempts + 1) oracle.tail c v fs htail

/-! ### `hasRecord` and `create_file` branch equations -/

theorem not_key_of_hasRecord_false (files : List CacheFile) (p x : String)
    (h : hasRecord files p x = false) :
    ∀ g ∈ files, ¬(g.partition = p ∧ g.filename = x) := by
  intro g hg hgpx
  have hT : hasRecord files p x = true := by
    unfold hasRecord
    exact List.any_eq_true.mpr ⟨g, hg, by simp [hgpx.1, hgpx.2]⟩
  rw [h] at hT
  exact absurd hT (by simp)

theorem create_file_lock_fail (maxAttempts : Nat) (oracle : List Bool)
    (p x : String) (now : Nat) (body : WriteOutcome) (c : Cache) :
    CachePartition.create_file maxAttempts false oracle p x now body c =
      (some CreateError.lockError, c) := by
  simp [CachePartition.create_file]

theorem create_file_prune_fail (maxAttempts : Nat) (oracle : List Bool)
    (p x : String) (now : Nat) (body : WriteOutcome) (c : Cache)
    (h : ¬ (Cache.prune maxAttempts oracle c).2.1 = PruneResult.ok) :
    CachePartition.create_file maxAttempts true oracle p x now body c =
      (some CreateError.pruneExhausted, (Cache.prune maxAttempts oracle c).1) := by
  simp [CachePartition.create_file, h]

theorem create_file_integrity_fail (maxAttempts : Nat) (oracle : List Bool)
    (p x : String) (now : Nat) (body : WriteOutcome) (c : Cache)
    (hok : (Cache.prune maxAttempts oracle c).2.1 = PruneResult.ok)
    (hrec : hasRecord (Cache.prune maxAttempts oracle c).1.files p x = true) :
    CachePartition.create_file maxAttempts true oracle p x now body c =
      (some CreateError.integrityError,
        { (Cache.prune maxAttempts oracle c).1 with
          storage := storageDelete
            (storageSave
              (storageDelete (Cache.prune maxAttempts oracle c).1.storage
                (CachePartition.get_combined_filename p x))
              (CachePartition.get_combined_filename p x) [])
            (CachePartition.get_combined_filename p x) }) := by
  simp [CachePartition.create_file, hok, hrec]

theorem create_file_write_fail (maxAttempts : Nat) (oracle : List Bool)
    (p x : String) (now : Nat) (written : List Nat) (c : Cache)
    (hok : (Cache.prune maxAttempts oracle c).2.1 = PruneResult.ok)
    (hrec : hasRecord (Cache.prune maxAttempts oracle c).1.files p x = false) :
    CachePartition.create_file maxAttempts true oracle p x now
        (WriteOutcome.failure written) c =
      (some CreateError.writeError,
        (CacheFile.delete true true
          { (Cache.prune maxAttempts oracle c).1 with
            files := (Cache.prune maxAttempts oracle c).1.files ++
              [⟨p, x, now, 0⟩]
            storage := storageSave
              (storageSave
                (storageDelete (Cache.prune maxAttempts oracle c).1.storage
                  (CachePartition.get_combined_filename p x))
                (CachePartition.get_combined_filename p x) [])
              (CachePartition.get_combined_filename p x) written }
          ⟨p, x, now, 0⟩).2) := by
  simp [CachePartition.create_file, hok, hrec]

theorem create_file_success (maxAttempts : Nat) (oracle : List Bool)
    (p x : String) (now : Nat) (content : List Nat) (c : Cache)
    (hok : (Cache.prune maxAttempts oracle c).2.1 = PruneResult.ok)
    (hrec : hasRecord (Cache.prune maxAttempts oracle c).1.files p x = false) :
    CachePartition.create_file maxAttempts true oracle p x now
        (WriteOutcome.success content) c =
      (none,
        CacheFile.update_size
          { (Cache.prune maxAttempts oracle c).1 with
            files := (Cache.prune maxAttempts oracle c).1.files ++
              [⟨p, x, now, 0⟩]
            storage := storageSave
              (storageSave
                (storageDelete (Cache.prune maxAttempts oracle c).1.storage
                  (CachePartition.get_combined_filename p x))
                (CachePartition.get_combined_filename p x) [])
              (CachePartition.get_combined_filename p x) content }
          ⟨p, x, now, 0⟩) := by
  simp [CachePartition.create_file, hok, hrec]

theorem create_file_ne_none_of_not_ok (maxAttempts : Nat) (lockOk : Bool)
    (oracle : List Bool) (p x : String) (now : Nat) (body : WriteOutcome)
    (c : Cache)
    (h : (CachePartition.create_file maxAttempts lockOk oracle p x now body
      c).1 = none) :
    lockOk = true ∧
      (Cache.prune maxAttempts oracle c).2.1 = PruneResult.ok ∧
      hasRecord (Cache.prune maxAttempts oracle c).1.files p x = false := by
  cases lockOk with
  | false => rw [create_file_lock_fail] at h; exact absurd h (by simp)
  | true =>
    refine ⟨rfl, ?_⟩
    by_cases hok : (Cache.prune maxAttempts oracle c).2.1 = PruneResult.ok
    · refine ⟨hok, ?_⟩
      by_cases hrec : hasRecord (Cache.prune maxAttempts oracle c).1.files
        p x = true
      · rw [create_file_integrity_fail maxAttempts oracle p x now body c hok
          hrec] at h
        exact absurd h (by simp)
      · exact Bool.not_eq_true _ ▸ hrec
    · rw [create_file_prune_fail maxAttempts oracle p x now body c hok] at h
      exact absurd h (by simp)

theorem CacheFile.update_size_maximum_size (c : Cache) (f : CacheFile) :
    (CacheFile.update_size c f).maximum_size = c.maximum_size := rfl

theorem CacheFile.update_size_storage (c : Cache) (f : CacheFile) :
    (CacheFile.update_size c f).storage = c.storage := rfl

theorem get_total_size_update_size_append (nm : String) (ms : Nat)
    (L : List CacheFile) (f : CacheFile) (st : Storage)
    (hf : ∀ g ∈ L, g ≠ f) :
    (CacheFile.update_size ⟨nm, ms, L ++ [f], st⟩ f).get_total_size =
      (L.map CacheFile.file_size).sum + storageSize st f.full_filename := by
  unfold CacheFile.update_size Cache.get_total_size Cache.get_files
  simp only [List.map_append]
  have hL : L.map (fun g => if g = f then
      { g with file_size := storageSize st f.full_filename } else g) = L := by
    conv_rhs => rw [← List.map_id L]
    exact List.map_congr_left (fun g hg => by rw [if_neg (hf g hg)]; rfl)
  rw [hL]
  simp

/-! ### Purge fold lemmas -/

theorem foldDelete_files (todo : List CacheFile) (c : Cache)
    (hsub : ∀ f ∈ todo, f ∈ c.files) (hnd : c.files.Nodup)
    (hndt : todo.Nodup) :
    (todo.foldl (fun acc f => (CacheFile.delete true true acc f).2) c).files =
      c.files.filter (fun f => decide (¬ f ∈ todo)) := by
  induction todo generalizing c with
  | nil => simp
  | cons a todo ih =>
    simp only [List.foldl_cons]
    have hnd' : ((CacheFile.delete true true c a).2).files.Nodup := by
      rw [CacheFile.delete_ok]
      exact hnd.erase a
    have hsub' : ∀ f ∈ todo, f ∈ ((CacheFile.delete true true c a).2).files := by
      intro f hf
      rw [CacheFile.delete_ok]
      have hne : f ≠ a := fun h => (List.nodup_cons.mp hndt).1 (h ▸ hf)
      exact (List.mem_erase_of_ne hne).mpr (hsub f (List.mem_cons_of_mem a hf))
    rw [ih _ hsub' hnd' (List.nodup_cons.mp hndt).2]
    rw [CacheFile.delete_ok]
    show (c.files.erase a).filter (fun f => decide (¬ f ∈ todo)) =
      c.files.filter (fun f => decide (¬ f ∈ a :: todo))
    rw [hnd.erase_eq_filter a, List.filter_filter]
    apply List.filter_congr
    intro f hf
    by_cases h1 : f = a
    · simp [h1]
    · by_cases h2 : f ∈ todo <;> simp [h1, h2]

theorem foldDelete_storage_none (todo : List CacheFile) (c : Cache)
    (k : String) (h : storageLookup c.storage k = none) :
    storageLookup
      ((todo.foldl (fun acc f => (CacheFile.delete true true acc f).2)
        c)).storage k = none := by
  induction todo generalizing c with
  | nil => exact h
  | cons a todo ih =>
    simp only [List.foldl_cons]
    apply ih
    rw [CacheFile.delete_ok]
    exact storageLookup_delete_none _ _ _ h

theorem foldDelete_storage_mem (todo : List CacheFile) (c : Cache)
    (f : CacheFile) (hf : f ∈ todo) :
    storageLookup
      ((todo.foldl (fun acc f => (CacheFile.delete true true acc f).2)
        c)).storage f.full_filename = none := by
  induction todo generalizing c with
  | nil => cases hf
  | cons a todo ih =>
    simp only [List.foldl_cons]
    rcases List.mem_cons.mp hf with rfl | hf'
    · apply foldDelete_storage_none
      rw [CacheFile.delete_ok]
      exact storageLookup_delete_self _ _
    · exact ih _ hf'

theorem partition_purge_files (c : Cache) (p : String)
    (hnd : c.files.Nodup) :
    (CachePartition.purge c p).files =
      c.files.filter (fun f => decide (¬ f.partition = p)) := by
  unfold CachePartition.purge
  rw [foldDelete_files _ c (fun f hf => List.mem_of_mem_filter hf) hnd
    (hnd.filter _)]
  apply List.filter_congr
  intro f hf
  by_cases hp : f.partition = p
  · simp [List.mem_filter, hf, hp]
  · simp [List.mem_filter, hp]

theorem partition_purge_storage_none (c : Cache) (p k : String)
    (h : storageLookup c.storage k = none) :
    storageLookup (CachePartition.purge c p).storage k = none :=
  foldDelete_storage_none _ c k h

theorem partition_purge_storage_mem (c : Cache) (p : String) (f : CacheFile)
    (hf : f ∈ c.files) (hp : f.partition = p) :
    storageLookup (CachePartition.purge c p).storage f.full_filename = none :=
  foldDelete_storage_mem _ c f (List.mem_filter.mpr ⟨hf, by simp [hp]⟩)

theorem fold_purge_spec (ps : List String) (c : Cache)
    (hnd : c.files.Nodup) :
    (ps.foldl (fun acc p => CachePartition.purge acc p) c).files =
      c.files.filter (fun f => decide (¬ f.partition ∈ ps)) ∧
    (∀ k, storageLookup c.storage k = none →
      storageLookup
        ((ps.foldl (fun acc p => CachePartition.purge acc p) c)).storage k =
        none) ∧
    (∀ f ∈ c.files, f.partition ∈ ps →
      storageLookup
        ((ps.foldl (fun acc p => CachePartition.purge acc p) c)).storage
        f.full_filename = none) := by
  induction ps generalizing c with
  | nil => exact ⟨by simp, fun k h => h, by simp⟩
  | cons p ps ih =>
    simp only [List.foldl_cons]
    have hnd' : (CachePartition.purge c p).files.Nodup := by
      rw [partition_purge_files c p hnd]
      exact hnd.filter _
    obtain ⟨ih1, ih2, ih3⟩ := ih (CachePartition.purge c p) hnd'
    refine ⟨?_, ?_, ?_⟩
    · rw [ih1, partition_purge_files c p hnd, List.filter_filter]
      apply List.filter_congr
      intro f hf
      by_cases h1 : f.partition = p
      · simp [h1]
      · by_cases h2 : f.partition ∈ ps <;> simp [h1, h2]
    · intro k hk
      exact ih2 k (partition_purge_storage_none c p k hk)
    · intro f hf hps
      by_cases h1 : f.partition = p
      · exact ih2 _ (partition_purge_storage_mem c p f hf h1)
      · have hf' : f ∈ (CachePartition.purge c p).files := by
          rw [partition_purge_files c p hnd]
          exact List.mem_filter.mpr ⟨hf, by simp [h1]⟩
        have hps' : f.partition ∈ ps := by
          rcases List.mem_cons.mp hps with h | h
          · exact absurd h h1
          · exact h
        exact ih3 f hf' hps'

/-! ### Claim C1 — size bound after `create_file` -/

/-- C1 fails as stated: a `create_file` call on a cache holding 6 bytes with
`maximum_size = 10` writes 6 further bytes and returns normally (no
`PruneExhausted`), yet afterwards `get_total_size = 12 > 10`.  `prune` runs
before the new bytes are admitted, so the new file's own size may push the
total above the bound with no error raised. -/
theorem claim_C1_counterexample :
    (CachePartition.create_file 3 true [] "p" "b" 1
        (WriteOutcome.success [1, 2, 3, 4, 5, 6])
        ⟨"s", 10, [⟨"p", "a", 0, 6⟩], [("p-a", [9, 9, 9, 9, 9, 9])]⟩).1 =
      none ∧
    ¬ ((CachePartition.create_file 3 true [] "p" "b" 1
        (WriteOutcome.success [1, 2, 3, 4, 5, 6])
        ⟨"s", 10, [⟨"p", "a", 0, 6⟩], [("p-a", [9, 9, 9, 9, 9, 9])]⟩).2.get_total_size ≤
      (CachePartition.create_file 3 true [] "p" "b" 1
        (WriteOutcome.success [1, 2, 3, 4, 5, 6])
        ⟨"s", 10, [⟨"p", "a", 0, 6⟩], [("p-a", [9, 9, 9, 9, 9, 9])]⟩).2.maximum_size) := by
  decide

/-- C1 (amended): after a `create_file` call that returns normally having
written `content`, the cache's total size is at most `maximum_size` plus the
size of the file written by that call — the content present before the
write is pruned to at most the bound (or the call raised, e.g.
`PruneExhausted`, instead of returning). -/
theorem claim_C1_size_bound (m : Nat) (lockOk : Bool) (oracle : List Bool)
    (p x : String) (now : Nat) (content : List Nat) (c : Cache)
    (h : (CachePartition.create_file m lockOk oracle p x now
      (WriteOutcome.success content) c).1 = none) :
    (CachePartition.create_file m lockOk oracle p x now
        (WriteOutcome.success content) c).2.get_total_size ≤
      (CachePartition.create_file m lockOk oracle p x now
        (WriteOutcome.success content) c).2.maximum_size + content.length := by
  obtain ⟨hl, hok, hrec⟩ := create_file_ne_none_of_not_ok m lockOk oracle
    p x now (WriteOutcome.success content) c h
  subst hl
  rw [create_file_success m oracle p x now content c hok hrec]
  have hf : ∀ g ∈ (Cache.prune m oracle c).1.files,
      g ≠ (⟨p, x, now, 0⟩ : CacheFile) := by
    intro g hg heq
    exact not_key_of_hasRecord_false _ p x hrec g hg
      (by rw [heq]; exact ⟨rfl, rfl⟩)
  rw [get_total_size_update_size_append _ _ _ _ _ hf]
  rw [CacheFile.update_size_maximum_size]
  have hsz : storageSize
      (storageSave
        (storageSave
          (storageDelete (Cache.prune m oracle c).1.storage
            (CachePartition.get_combined_filename p x))
          (CachePartition.get_combined_filename p x) [])
        (CachePartition.get_combined_filename p x) content)
      (CacheFile.full_filename ⟨p, x, now, 0⟩) = content.length :=
    storageSize_save_self _ _ _
  rw [hsz]
  have hbound : (Cache.prune m oracle c).1.get_total_size ≤
      (Cache.prune m oracle c).1.maximum_size :=
    Cache.pruneAux_ok_bound m (c.files.length + m + 1) 0 oracle c hok
  exact Nat.add_le_add_right hbound content.length

/-- Witness for C1 (amended): a concrete normal-return call satisfying the
amended bound. -/
theorem claim_C1_size_bound_witness :
    (CachePartition.create_file 3 true [] "p" "x" 1
        (WriteOutcome.success [1]) ⟨"s", 10, [], []⟩).2.get_total_size ≤
      (CachePartition.create_file 3 true [] "p" "x" 1
        (WriteOutcome.success [1]) ⟨"s", 10, [], []⟩).2.maximum_size +
        ([1] : List Nat).length :=
  claim_C1_size_bound 3 true [] "p" "x" 1 [1] ⟨"s", 10, [], []⟩ (by decide)

/-! ### Claim C2 — cleanup after a failed `create_file` -/

/-- C2 fails as stated: with `maximum_size = 1`, a pre-existing record for
`"x"` of size 5 and a lock-blocked prune (`maxAttempts = 0`),
`create_file("x")` raises `PruneExhausted` after the per-file lock was
acquired, yet on exit the `CachePartitionFile` record for `"x"` still
exists and the backend object at the combined key still holds bytes. -/
theorem claim_C2_counterexample :
    (CachePartition.create_file 0 true [false] "p" "x" 1
        (WriteOutcome.success [7])
        ⟨"s", 1, [⟨"p", "x", 0, 5⟩], [("p-x", [1, 2, 3, 4, 5])]⟩).1 =
      some CreateError.pruneExhausted ∧
    hasRecord (CachePartition.create_file 0 true [false] "p" "x" 1
        (WriteOutcome.success [7])
        ⟨"s", 1, [⟨"p", "x", 0, 5⟩], [("p-x", [1, 2, 3, 4, 5])]⟩).2.files
      "p" "x" = true ∧
    storageLookup (CachePartition.create_file 0 true [false] "p" "x" 1
        (WriteOutcome.success [7])
        ⟨"s", 1, [⟨"p", "x", 0, 5⟩], [("p-x", [1, 2, 3, 4, 5])]⟩).2.storage
      "p-x" = some [1, 2, 3, 4, 5] := by
  decide

/-- C2 (amended): if `create_file` raises after the placeholder step — the
caller's write raised (`writeError`), or record creation hit the
`(partition, filename)` uniqueness constraint (`integrityError`) — then on
exit the backend object at the combined key is absent, and in the
`writeError` case the record created by the call was deleted via the full
delete path, so no record for that filename remains.  (State from before
the call can survive failures before the placeholder step, e.g. a
`PruneExhausted` raise; after an `integrityError` the pre-existing record
that caused it remains.)  The original exception is re-raised. -/
theorem claim_C2_cleanup (m : Nat) (oracle : List Bool) (p x : String)
    (now : Nat) (body : WriteOutcome) (c : Cache) :
    ((CachePartition.create_file m true oracle p x now body c).1 =
        some CreateError.writeError →
      hasRecord (CachePartition.create_file m true oracle p x now body
          c).2.files p x = false ∧
      storageLookup (CachePartition.create_file m true oracle p x now body
          c).2.storage (CachePartition.get_combined_filename p x) = none) ∧
    ((CachePartition.create_file m true oracle p x now body c).1 =
        some CreateError.integrityError →
      storageLookup (CachePartition.create_file m true oracle p x now body
          c).2.storage (CachePartition.get_combined_filename p x) = none) := by
  by_cases hok : (Cache.prune m oracle c).2.1 = PruneResult.ok
  · by_cases hrec : hasRecord (Cache.prune m oracle c).1.files p x = true
    · rw [create_file_integrity_fail m oracle p x now body c hok hrec]
      refine ⟨fun hcontra => absurd hcontra (by simp), fun _ => ?_⟩
      exact storageLookup_delete_self _ _
    · have hrec' : hasRecord (Cache.prune m oracle c).1.files p x = false :=
        by simpa using hrec
      have hfnot : (⟨p, x, now, 0⟩ : CacheFile) ∉
          (Cache.prune m oracle c).1.files := by
        intro hmem
        exact not_key_of_hasRecord_false _ p x hrec' _ hmem ⟨rfl, rfl⟩
      cases body with
      | success content =>
        rw [create_file_success m oracle p x now content c hok hrec']
        exact ⟨fun hcontra => absurd hcontra (by simp),
          fun hcontra => absurd hcontra (by simp)⟩
      | failure written =>
        rw [create_file_write_fail m oracle p x now written c hok hrec']
        refine ⟨fun _ => ⟨?_, ?_⟩, fun hcontra => absurd hcontra (by simp)⟩
        · rw [CacheFile.delete_ok]
          show hasRecord (((Cache.prune m oracle c).1.files ++
            [(⟨p, x, now, 0⟩ : CacheFile)]).erase
              (⟨p, x, now, 0⟩ : CacheFile)) p x = false
          rw [List.erase_append_right _ hfnot]
          simpa using hrec'
        · rw [CacheFile.delete_ok]
          exact storageLookup_delete_self _ _
  · rw [create_file_prune_fail m oracle p x now body c hok]
    exact ⟨fun hcontra => absurd hcontra (by simp),
      fun hcontra => absurd hcontra (by simp)⟩

/-- Witness for C2 (amended): a concrete call whose caller raises
mid-write; after cleanup no record and no backend object remain. -/
theorem claim_C2_cleanup_witness :
    hasRecord (CachePartition.create_file 3 true [] "p" "x" 1
        (WriteOutcome.failure [1]) ⟨"s", 10, [], []⟩).2.files "p" "x" =
      false ∧
    storageLookup (CachePartition.create_file 3 true [] "p" "x" 1
        (WriteOutcome.failure [1]) ⟨"s", 10, [], []⟩).2.storage
      (CachePartition.get_combined_filename "p" "x") = none :=
  (claim_C2_cleanup 3 [] "p" "x" 1 (WriteOutcome.failure [1])
    ⟨"s", 10, [], []⟩).1 (by decide)

/-! ### Claim C5 — overwrite isolation -/

/-- C5 fails as stated: creating `"x"` in partition `"p"` twice in
succession does not leave the second write's bytes readable — the second
call raises the `(partition, filename)` uniqueness integrity error and its
cleanup deletes the combined key outright, so nothing is readable there. -/
theorem claim_C5_counterexample :
    (CachePartition.create_file 3 true [] "p" "x" 2
        (WriteOutcome.success [7, 8])
        (CachePartition.create_file 3 true [] "p" "x" 1
          (WriteOutcome.success [1, 2]) ⟨"s", 1000, [], []⟩).2).1 =
      some CreateError.integrityError ∧
    ¬ (storageLookup (CachePartition.create_file 3 true [] "p" "x" 2
        (WriteOutcome.success [7, 8])
        (CachePartition.create_file 3 true [] "p" "x" 1
          (WriteOutcome.success [1, 2]) ⟨"s", 1000, [], []⟩).2).2.storage
      (CachePartition.get_combined_filename "p" "x") = some [7, 8]) := by
  decide

/-- C5 (amended): whenever a `create_file` call returns normally having
written `content`, exactly `content` is readable at the combined key — the
force-delete/re-save placeholder step removes any stale bytes previously
stored at that key, so no bytes from earlier content are mixed in.
(Creating the same filename twice in direct succession instead raises the
uniqueness integrity error, see the counterexample.) -/
theorem claim_C5_overwrite (m : Nat) (lockOk : Bool) (oracle : List Bool)
    (p x : String) (now : Nat) (content : List Nat) (c : Cache)
    (h : (CachePartition.create_file m lockOk oracle p x now
      (WriteOutcome.success content) c).1 = none) :
    storageLookup (CachePartition.create_file m lockOk oracle p x now
        (WriteOutcome.success content) c).2.storage
      (CachePartition.get_combined_filename p x) = some content := by
  obtain ⟨hl, hok, hrec⟩ := create_file_ne_none_of_not_ok m lockOk oracle
    p x now (WriteOutcome.success content) c h
  subst hl
  rw [create_file_success m oracle p x now content c hok hrec]
  rw [CacheFile.update_size_storage]
  exact storageLookup_save_self _ _ _

/-- Witness for C5 (amended): a concrete call over a stale object at the
same key; afterwards exactly the new bytes are readable. -/
theorem claim_C5_overwrite_witness :
    storageLookup (CachePartition.create_file 3 true [] "p" "x" 5
        (WriteOutcome.success [4, 4])
        ⟨"s", 10, [], [("p-x", [1, 2, 3])]⟩).2.storage
      (CachePartition.get_combined_filename "p" "x") = some [4, 4] :=
  claim_C5_overwrite 3 true [] "p" "x" 5 [4, 4]
    ⟨"s", 10, [], [("p-x", [1, 2, 3])]⟩ (by decide)

/-! ### Claim C3 — eviction order -/

/-- C3: on every iteration of `Cache.prune` that attempts a deletion, the
selected file is one of the cache's files at that moment (`fs`, spanning
all partitions of the cache) with the smallest `created_at` (`datetime`)
among them. -/
theorem claim_C3_eviction_order (m : Nat) (oracle : List Bool) (c : Cache)
    (v : CacheFile) (fs : List CacheFile)
    (h : (v, fs) ∈ (Cache.prune m oracle c).2.2) :
    v ∈ fs ∧ ∀ g ∈ fs, v.datetime ≤ g.datetime :=
  Cache.pruneAux_trace_earliest m (c.files.length + m + 1) 0 oracle c v fs h

/-- Witness for C3: a prune over two partitions attempts the oldest file of
partition `"p"` first even though partition `"q"` also holds a file. -/
theorem claim_C3_eviction_order_witness :
    ((⟨"p", "a", 0, 1⟩ : CacheFile) ∈
      ([⟨"p", "a", 0, 1⟩, ⟨"q", "b", 1, 2⟩] : List CacheFile)) ∧
    (⟨"p", "a", 0, 1⟩ : CacheFile).datetime ≤
      (⟨"q", "b", 1, 2⟩ : CacheFile).datetime :=
  ⟨(claim_C3_eviction_order 3 []
      ⟨"s", 1, [⟨"p", "a", 0, 1⟩, ⟨"q", "b", 1, 2⟩], []⟩
      ⟨"p", "a", 0, 1⟩ [⟨"p", "a", 0, 1⟩, ⟨"q", "b", 1, 2⟩] (by decide)).1,
    (claim_C3_eviction_order 3 []
      ⟨"s", 1, [⟨"p", "a", 0, 1⟩, ⟨"q", "b", 1, 2⟩], []⟩
      ⟨"p", "a", 0, 1⟩ [⟨"p", "a", 0, 1⟩, ⟨"q", "b", 1, 2⟩] (by decide)).2
      ⟨"q", "b", 1, 2⟩ (by decide)⟩

/-! ### Claim C4 — lock-failure handling in `prune` -/

/-- C4: when a deletion attempt fails with a lock error, the loop records
one failed attempt; if the accumulated count exceeds the configured maximum
the whole call raises the fatal `RuntimeError` right there (rather than
returning over the bound), and otherwise the loop iterates again on the
unchanged state, re-selecting the same earliest file `v` (no exclusion of
the file that just failed): the next attempted deletion targets `v` again. -/
theorem claim_C4_lock_retry (m fuel att : Nat) (rest : List Bool) (c : Cache)
    (v : CacheFile) (hover : ¬ c.get_total_size ≤ c.maximum_size)
    (he : c.earliest = some v) :
    (att + 1 > m →
      Cache.pruneAux m (fuel + 1) att (false :: rest) c =
        (c, PruneResult.exhausted, [(v, c.files)])) ∧
    (att + 1 ≤ m →
      (Cache.pruneAux m (fuel + 2) att (false :: rest) c).2.2.take 2 =
        [(v, c.files), (v, c.files)]) := by
  constructor
  · intro h3
    rw [Cache.pruneAux_step m fuel att (false :: rest) c v hover he]
    simp [h3]
  · intro h3
    rw [Cache.pruneAux_step m (fuel + 1) att (false :: rest) c v hover he]
    rw [if_neg (by simp)]
    rw [if_neg (by omega)]
    show ((v, c.files) ::
      (Cache.pruneAux m (fuel + 1) (att + 1) rest c).2.2).take 2 =
        [(v, c.files), (v, c.files)]
    rw [List.take_succ_cons]
    rw [Cache.pruneAux_step m fuel (att + 1) rest c v hover he]
    split
    · simp [List.take]
    · split
      · simp [List.take]
      · simp [List.take]

/-- Witness for C4: with `maxAttempts = 2` and one lock failure, the same
earliest file is re-attempted on the very next iteration. -/
theorem claim_C4_lock_retry_witness :
    (Cache.pruneAux 2 3 0 [false] ⟨"s", 1, [⟨"p", "a", 0, 2⟩], []⟩).2.2.take 2 =
      [(⟨"p", "a", 0, 2⟩, [⟨"p", "a", 0, 2⟩]),
        (⟨"p", "a", 0, 2⟩, [⟨"p", "a", 0, 2⟩])] :=
  (claim_C4_lock_retry 2 1 0 [] ⟨"s", 1, [⟨"p", "a", 0, 2⟩], []⟩
    ⟨"p", "a", 0, 2⟩ (by decide) (by decide)).2 (by decide)

/-! ### Claim C6 — delete order: backend first, then the record -/

/-- C6: `CachePartitionFile.delete` deletes the backend object at the
combined key and only then removes the record; if the backend delete
raises, the record is untouched (the state is returned unchanged) and the
error propagates; on success the key is absent and the record removed. -/
theorem claim_C6_delete_order (c : Cache) (f : CacheFile) :
    CacheFile.delete true false c f = (some DeleteError.backendError, c) ∧
    storageLookup (CacheFile.delete true true c f).2.storage
      f.full_filename = none ∧
    (CacheFile.delete true true c f).2.files = c.files.erase f := by
  refine ⟨rfl, ?_, rfl⟩
  rw [CacheFile.delete_ok]
  exact storageLookup_delete_self _ _

/-! ### Claim C7 — `save` prunes immediately -/

/-- C7: `Cache.save` persists the configuration (here the new
`maximum_size`) and invokes `prune` before returning, so whenever that
prune returns normally the total size already satisfies the new, possibly
lowered, bound. -/
theorem claim_C7_save_prunes (m : Nat) (oracle : List Bool) (newMax : Nat)
    (c : Cache) :
    (Cache.save m oracle newMax c).1.maximum_size = newMax ∧
    ((Cache.save m oracle newMax c).2.1 = PruneResult.ok →
      (Cache.save m oracle newMax c).1.get_total_size ≤ newMax) := by
  constructor
  · exact Cache.pruneAux_maximum_size m _ 0 oracle _
  · intro hok
    have h1 := Cache.pruneAux_ok_bound m
      (({ c with maximum_size := newMax } : Cache).files.length + m + 1) 0
      oracle { c with maximum_size := newMax } hok
    have h2 : (Cache.save m oracle newMax c).1.maximum_size = newMax :=
      Cache.pruneAux_maximum_size m _ 0 oracle _
    exact le_trans h1 (le_of_eq h2)

/-- Witness for C7: lowering the bound to 4 over files of sizes 5 and 3
evicts down to 3 before `save` returns. -/
theorem claim_C7_save_prunes_witness :
    (Cache.save 3 [] 4
      ⟨"s", 100, [⟨"p", "a", 0, 5⟩, ⟨"p", "b", 1, 3⟩], []⟩).1.get_total_size ≤
      4 :=
  (claim_C7_save_prunes 3 [] 4
    ⟨"s", 100, [⟨"p", "a", 0, 5⟩, ⟨"p", "b", 1, 3⟩], []⟩).2 (by decide)

/-! ### Claim C8 — `purge` resolves the storage first -/

/-- C8: `Cache.purge` first resolves the cache's storage backend by name.
If the name is unresolvable it performs no deletions at all — the state is
returned untouched.  Otherwise it purges every partition the cache owns:
afterwards no file record remains and the backend object of every file the
cache held is absent.  (`hnd` reflects the database rows being distinct,
enforced by the `(partition, filename)` uniqueness constraint.) -/
theorem claim_C8_purge (registry : List (String × DefinedStorage))
    (c : Cache) (hnd : c.files.Nodup) :
    (DefinedStorage.get registry c.defined_storage_name = none →
      Cache.purge registry c = c) ∧
    (∀ d, DefinedStorage.get registry c.defined_storage_name = some d →
      (Cache.purge registry c).files = [] ∧
      ∀ f ∈ c.files,
        storageLookup (Cache.purge registry c).storage f.full_filename =
          none) := by
  constructor
  · intro hn
    unfold Cache.purge
    rw [hn]
  · intro d hd
    have hpu : Cache.purge registry c =
        c.partitions.foldl (fun acc p => CachePartition.purge acc p) c := by
      unfold Cache.purge
      rw [hd]
    rw [hpu]
    obtain ⟨h1, h2, h3⟩ := fold_purge_spec c.partitions c hnd
    constructor
    · rw [h1]
      apply List.filter_eq_nil_iff.mpr
      intro f hf
      simp only [decide_eq_true_eq, Decidable.not_not]
      unfold Cache.partitions
      rw [List.mem_dedup]
      exact List.mem_map_of_mem CacheFile.partition hf
    · intro f hf
      apply h3 f hf
      unfold Cache.partitions
      rw [List.mem_dedup]
      exact List.mem_map_of_mem CacheFile.partition hf

/-- Witness for C8: a resolvable cache with two partitions is fully
emptied, and the backend object of one purged file is gone. -/
theorem claim_C8_purge_witness :
    (Cache.purge [("s", ⟨"d", "L", "s"⟩)]
      ⟨"s", 10, [⟨"p", "a", 0, 1⟩, ⟨"q", "b", 1, 2⟩],
        [("p-a", [1]), ("q-b", [2])]⟩).files = [] ∧
    storageLookup (Cache.purge [("s", ⟨"d", "L", "s"⟩)]
      ⟨"s", 10, [⟨"p", "a", 0, 1⟩, ⟨"q", "b", 1, 2⟩],
        [("p-a", [1]), ("q-b", [2])]⟩).storage
      (CacheFile.full_filename ⟨"p", "a", 0, 1⟩) = none :=
  ⟨((claim_C8_purge [("s", ⟨"d", "L", "s"⟩)]
      ⟨"s", 10, [⟨"p", "a", 0, 1⟩, ⟨"q", "b", 1, 2⟩],
        [("p-a", [1]), ("q-b", [2])]⟩ (by decide)).2 ⟨"d", "L", "s"⟩
      (by decide)).1,
    ((claim_C8_purge [("s", ⟨"d", "L", "s"⟩)]
      ⟨"s", 10, [⟨"p", "a", 0, 1⟩, ⟨"q", "b", 1, 2⟩],
        [("p-a", [1]), ("q-b", [2])]⟩ (by decide)).2 ⟨"d", "L", "s"⟩
      (by decide)).2 ⟨"p", "a", 0, 1⟩ (by decide)⟩

/-! ### Claim C9 — `prune` terminates -/

/-- C9: `Cache.prune` terminates on every call: with its fuel of
`files.length + maxAttempts + 1` — one unit per iteration, where every
iteration either deletes a file (shrinking the file list) or increments the
failure counter (bounded by the configured maximum before the fatal raise)
— the loop always ends in a normal return or the fatal `RuntimeError`,
never by fuel exhaustion or the unreachable empty-queryset error. -/
theorem claim_C9_prune_terminates (m : Nat) (oracle : List Bool) (c : Cache) :
    (Cache.prune m oracle c).2.1 = PruneResult.ok ∨
      (Cache.prune m oracle c).2.1 = PruneResult.exhausted := by
  have h1 := Cache.pruneAux_ne_outOfFuel m (c.files.length + m + 1) 0 oracle c
    (by omega)
  have h2 := Cache.pruneAux_ne_emptyError m (c.files.length + m + 1) 0 oracle c
  cases hr : (Cache.prune m oracle c).2.1 with
  | ok => exact Or.inl rfl
  | exhausted => exact Or.inr rfl
  | emptyError => exact absurd hr h2
  | outOfFuel => exact absurd hr h1

/-! ### Claim C10 — unresolvable storage yields the Unknown placeholder -/

/-- C10: `Cache.get_defined_storage` is total (never raises): on a registry
miss it returns the placeholder storage labelled `Unknown` instead of
propagating the `KeyError`, so `Cache.label` is always defined; on a hit it
returns the registered storage. -/
theorem claim_C10_unknown_storage (registry : List (String × DefinedStorage))
    (c : Cache) :
    (DefinedStorage.get registry c.defined_storage_name = none →
      c.get_defined_storage registry = ⟨"", "Unknown", "unknown"⟩ ∧
      c.label registry = "Unknown") ∧
    (∀ d, DefinedStorage.get registry c.defined_storage_name = some d →
      c.get_defined_storage registry = d) := by
  constructor
  · intro hn
    constructor
    · unfold Cache.get_defined_storage
      rw [hn]
    · unfold Cache.label Cache.get_defined_storage
      rw [hn]
  · intro d hd
    unfold Cache.get_defined_storage
    rw [hd]

/-- Witness for C10: a cache pointing at a name absent from the registry
gets the `Unknown`-labelled placeholder. -/
theorem claim_C10_unknown_storage_witness :
    Cache.get_defined_storage [("s1", ⟨"path", "Label1", "s1"⟩)]
        ⟨"gone", 10, [], []⟩ = ⟨"", "Unknown", "unknown"⟩ ∧
    Cache.label [("s1", ⟨"path", "Label1", "s1"⟩)] ⟨"gone", 10, [], []⟩ =
      "Unknown" :=
  (claim_C10_unknown_storage [("s1", ⟨"path", "Label1", "s1"⟩)]
    ⟨"gone", 10, [], []⟩).1 (by decide)

end FileCaching
